import Mathlib

/-!
Shallow embedding of src/src/core/hle/service/audio/hwopus.cpp (yuzu, 2018).

The service wraps an external Opus codec.  The codec itself is out of scope
(treated as a black box), so it is a parameter of the embedding:
a probe function (opus_packet_get_nb_samples) and a stateful decode function
(opus_decode).  C ints are 32-bit; every value that crosses the codec ABI as
an int is normalised with toInt32, and u32 casts with toU32, matching the
static_cast operations in the source.  Byte buffers are modelled as a length
plus an index function (a read-only view of a std::vector of u8).
Wall-clock time between the two high_resolution_clock reads is modelled by
per-region durations in nanoseconds (a TimeModel); the duration_cast to
milliseconds truncates, which is Nat division by 1000000.
-/

namespace HwOpus

/-- Two to the power 32, the modulus of u32 arithmetic. -/
def two32 : Nat := 4294967296

/-- Conversion of an integer to a signed 32-bit value (twos-complement wrap),
modelling static_cast to opus_int32 / int. -/
def toInt32 (x : Int) : Int := (x + 2147483648) % 4294967296 - 2147483648

/-- Conversion of an integer to an unsigned 32-bit value, modelling
static_cast to u32 and the implicit int-to-unsigned conversion. -/
def toU32 (x : Int) : Nat := (x % 4294967296).toNat

/-- A read-only byte buffer: the input std::vector of u8 as seen through
data() and size().  Entries are bytes; reads are taken mod 256. -/
structure ByteBuf where
  size : Nat
  data : Nat → Nat

/-- The big-endian 32-bit payload size field of OpusHeader: the first four
bytes of the input, most significant first (u32_be member sz). -/
def hdrSz (input : ByteBuf) : Nat :=
  (input.data 0 % 256) * 16777216 + (input.data 1 % 256) * 65536 +
    (input.data 2 % 256) * 256 + (input.data 3 % 256)

/-- The payload view: input.data() + sizeof(OpusHeader), the pointer passed
to the codec as frame. -/
def frameBytes (input : ByteBuf) : Nat → Nat :=
  fun i => input.data (8 + i) % 256

/-- Durations, in nanoseconds, of the code regions executed between the
start_time read (function entry) and the end_time read (after opus_decode
and its sign check) in Decoder_DecodeInterleaved. -/
structure TimeModel where
  tHeader : Nat
  tParse : Nat
  tBounds : Nat
  tProbe : Nat
  tCapacity : Nat
  tDecode : Nat

/-- Total wall-clock nanoseconds between the two clock reads on the success
path: the code starts timing at function entry, so every region contributes. -/
def TimeModel.elapsed (t : TimeModel) : Nat :=
  t.tHeader + t.tParse + t.tBounds + t.tProbe + t.tCapacity + t.tDecode

/-- The external Opus codec as a black box over an opaque state type S.
packet_nb_samples models opus_packet_get_nb_samples(frame, len, Fs) and
decode models opus_decode(state, frame, len, pcm_out, frame_size, fec),
returning the int result, the state after the call (the state is handed to
the codec by pointer and may be mutated), and the PCM samples it wrote into
the output area. -/
structure Codec (S : Type) where
  packet_nb_samples : (Nat → Nat) → Int → Int → Int
  decode : S → (Nat → Nat) → Int → Int → Int → Int × S × List Int

/-- A decoder session: the members of IHardwareOpusDecoderManager. -/
structure Session (S : Type) where
  decoder : S
  sample_rate : Nat
  channel_count : Nat
deriving DecidableEq

/-- The probe result: toInt32 of
opus_packet_get_nb_samples(input.data() + 8, int32(input.size() - 8),
int32(sample_rate)), exactly the call at lines 110-112 of the source.
Note the length argument is the whole remaining input, not hdr.sz. -/
def probeN {S : Type} (c : Codec S) (sess : Session S) (input : ByteBuf) : Int :=
  toInt32 (c.packet_nb_samples (frameBytes input)
    (toInt32 ((input.size : Int) - 8)) (toInt32 (sess.sample_rate : Int)))

/-- The capacity-check expression decoded_sample_count * channel_count *
sizeof(u16): int times u32 wraps in u32, then widening to size_t and a
multiplication by 2 that cannot wrap at 64 bits. -/
def checkBytes (n : Int) (channel_count : Nat) : Nat :=
  toU32 n * channel_count % two32 * 2

/-- The result of the private Decoder_DecodeInterleaved helper, together
with an instrumentation trace of the codec calls it made: probeCall records
the (len, Fs) arguments of opus_packet_get_nb_samples and decodeCall the
(len, frame_size, fec) arguments of opus_decode. -/
structure CoreResult (S : Type) where
  ok : Bool
  consumed : Nat
  sample_count : Nat
  samples : List Int
  decoder : S
  perf : Nat
  probeCall : Option (Int × Int)
  decodeCall : Option (Int × Int × Int)

/-- Writing src into the front of dst (the codec writing PCM into the
samples vector): the written prefix followed by the untouched tail. -/
def writeInto (dst src : List Int) : List Int :=
  src.take dst.length ++ dst.drop src.length

/-- Embedding of Decoder_DecodeInterleaved (source lines 91-138).
outputSize is output.size(), the length in samples of the zero-initialised
samples vector; raw_output_sz is that times sizeof(opus_int16).  The checks
appear in source order: header presence, payload bounds (using the
big-endian hdr.sz), the probe, the capacity check in wrapped unsigned
arithmetic, then opus_decode with frame_size raw_output_sz / 2 /
channel_count, failing when its result is negative.  consumed is
static_cast to u32 of 8 + hdr.sz.  perf is the elapsed milliseconds,
counted from function entry, set on the success path. -/
def Decoder_DecodeInterleaved {S : Type} (c : Codec S) (tm : TimeModel)
    (sess : Session S) (input : ByteBuf) (outputSize : Nat) : CoreResult S :=
  let raw_output_sz := outputSize * 2
  let zeros := List.replicate outputSize (0 : Int)
  if 8 > input.size then
    ⟨false, 0, 0, zeros, sess.decoder, 0, none, none⟩
  else if 8 + hdrSz input > input.size then
    ⟨false, 0, 0, zeros, sess.decoder, 0, none, none⟩
  else
    let probeLen := toInt32 ((input.size : Int) - 8)
    let fs := toInt32 ((sess.sample_rate : Int))
    let n := probeN c sess input
    if checkBytes n sess.channel_count > raw_output_sz then
      ⟨false, 0, 0, zeros, sess.decoder, 0, some (probeLen, fs), none⟩
    else
      let frame_size := toInt32 ((raw_output_sz / 2 / sess.channel_count : Nat) : Int)
      let dlen := toInt32 ((hdrSz input : Int))
      let r := c.decode sess.decoder (frameBytes input) dlen frame_size 0
      let ret := toInt32 r.1
      if ret < 0 then
        ⟨false, 0, 0, writeInto zeros r.2.2, r.2.1, 0,
          some (probeLen, fs), some (dlen, frame_size, 0)⟩
      else
        ⟨true, (8 + hdrSz input) % two32, ret.toNat, writeInto zeros r.2.2, r.2.1,
          tm.elapsed / 1000000, some (probeLen, fs), some (dlen, frame_size, 0)⟩

/-- The response pushed back to the caller on success: consumed,
sample_count, the bytes handed to ctx.WriteBuffer (as the sample list; the
byte count is twice its length), and the performance value when the variant
reports one. -/
structure DecodeResponse where
  consumed : Nat
  sample_count : Nat
  written : List Int
  perf : Option Nat
deriving DecidableEq

/-- Embedding of DecodeInterleaved (source lines 48-66): the samples vector
has GetWriteBufferSize() / sizeof(opus_int16) entries; on helper failure the
handler pushes the generic error and writes nothing; on success it pushes
consumed and sample_count and writes the whole vector.  The session after
the call carries the decoder state left by the helper. -/
def DecodeInterleaved {S : Type} (c : Codec S) (tm : TimeModel) (sess : Session S)
    (input : ByteBuf) (writeBufferSize : Nat) : Option DecodeResponse × Session S :=
  let r := Decoder_DecodeInterleaved c tm sess input (writeBufferSize / 2)
  let sess1 : Session S := { sess with decoder := r.decoder }
  if r.ok then (some ⟨r.consumed, r.sample_count, r.samples, none⟩, sess1)
  else (none, sess1)

/-- Embedding of DecodeInterleavedWithPerformance (source lines 68-89):
identical to DecodeInterleaved except that the helper is given the
performance out-parameter and its value is pushed after sample_count. -/
def DecodeInterleavedWithPerformance {S : Type} (c : Codec S) (tm : TimeModel)
    (sess : Session S) (input : ByteBuf) (writeBufferSize : Nat) :
    Option DecodeResponse × Session S :=
  let r := Decoder_DecodeInterleaved c tm sess input (writeBufferSize / 2)
  let sess1 : Session S := { sess with decoder := r.decoder }
  if r.ok then (some ⟨r.consumed, r.sample_count, r.samples, some r.perf⟩, sess1)
  else (none, sess1)

/-- The factory primitives of the external codec: opus_decoder_get_size
(channel count to state size) and opus_decoder_init (sample rate and channel
count to an error code and, in the allocated buffer, an initial state). -/
structure CodecFactory (S : Type) where
  decoder_get_size : Nat → Nat
  decoder_init : Nat → Nat → Int × S

/-- Outcome of HwOpus::OpenOpusDecoder: fatal models an ASSERT_MSG failure
(the process aborts, no response), error the ResultCode(-1) response when
opus_decoder_init fails, and session the registration of a new
IHardwareOpusDecoderManager sub-interface. -/
inductive OpenResult (S : Type) where
  | fatal : OpenResult S
  | error : OpenResult S
  | session : Session S → OpenResult S
deriving DecidableEq

/-- Embedding of WorkerBufferSize (source lines 151-154): asserts the
channel count is 1 or 2 (none models the assertion failure), then returns
opus_decoder_get_size(channel_count). -/
def WorkerBufferSize (get_size : Nat → Nat) (channel_count : Nat) : Option Nat :=
  if channel_count = 1 ∨ channel_count = 2 then some (get_size channel_count) else none

/-- Embedding of HwOpus::OpenOpusDecoder (source lines 175-204): assert the
sample-rate whitelist, assert the channel count, compute the worker size,
assert buffer_sz is at least the worker size, then initialise the codec;
a nonzero init status yields the generic error, otherwise a session. -/
def OpenOpusDecoder {S : Type} (f : CodecFactory S)
    (sample_rate channel_count buffer_sz : Nat) : OpenResult S :=
  if ¬ (sample_rate = 48000 ∨ sample_rate = 24000 ∨ sample_rate = 16000 ∨
      sample_rate = 12000 ∨ sample_rate = 8000) then OpenResult.fatal
  else if ¬ (channel_count = 1 ∨ channel_count = 2) then OpenResult.fatal
  else
    match WorkerBufferSize f.decoder_get_size channel_count with
    | none => OpenResult.fatal
    | some worker_sz =>
      if buffer_sz < worker_sz then OpenResult.fatal
      else
        let r := f.decoder_init sample_rate channel_count
        if r.1 ≠ 0 then OpenResult.error
        else OpenResult.session ⟨r.2, sample_rate, channel_count⟩

/-! Concrete instrumentation stubs used by witnesses and counterexamples.
The opaque codec state is a Nat so that mutation is observable. -/

/-- Codec stub returning fixed values and leaving the state alone. -/
def constCodec (p d : Int) (pcm : List Int) : Codec Nat :=
  ⟨fun _ _ _ => p, fun st _ _ _ _ => (d, st, pcm)⟩

/-- Codec stub whose decode mutates the decoder state (increments it). -/
def bumpCodec (p d : Int) (pcm : List Int) : Codec Nat :=
  ⟨fun _ _ _ => p, fun st _ _ _ _ => (d, st + 1, pcm)⟩

/-- An all-zero input buffer of a given size: header present once the size
is at least 8, with declared payload size 0. -/
def zeroBuf (n : Nat) : ByteBuf := ⟨n, fun _ => 0⟩

/-- A time model in which every region takes zero time. -/
def tm0 : TimeModel := ⟨0, 0, 0, 0, 0, 0⟩

/-- A time model in which each validation region takes one millisecond and
the codec decode takes zero time. -/
def tmVal : TimeModel := ⟨1000000, 1000000, 1000000, 1000000, 1000000, 0⟩

/-- A mono 48 kHz session with decoder state 0. -/
def sess48k1 : Session Nat := ⟨0, 48000, 1⟩

/-- A stereo 48 kHz session with decoder state 0. -/
def sess48k2 : Session Nat := ⟨0, 48000, 2⟩

/-- An input longer than 2^32 bytes whose big-endian payload size field is
the maximal u32 value 4294967295; the framing checks pass, and 8 plus the
payload size overflows a u32. -/
def c6Input : ByteBuf := ⟨4294967304, fun i => if i < 4 then 255 else 0⟩

/-- A 20-byte input whose header declares a 4-byte payload, leaving 8 bytes
of trailing slack after the payload. -/
def c7Input : ByteBuf := ⟨20, fun i => if i = 3 then 4 else 0⟩

/-- An 8-byte input whose header declares a 200-byte payload. -/
def c5Input : ByteBuf := ⟨8, fun i => if i = 3 then 200 else 0⟩

/-- A codec factory stub: 10-byte state, init always succeeds. -/
def f0 : CodecFactory Nat := ⟨fun _ => 10, fun _ _ => (0, 0)⟩

end HwOpus

namespace HwOpus

/-! Helper lemmas: characterizations of the five control paths of
Decoder_DecodeInterleaved, inversion lemmas for the two handler wrappers,
and arithmetic facts about the 32-bit conversions. -/

theorem writeInto_length (dst src : List Int) : (writeInto dst src).length = dst.length := by
  simp [writeInto]
  omega

theorem toInt32_bounds (x : Int) : -2147483648 ≤ toInt32 x ∧ toInt32 x < 2147483648 := by
  unfold toInt32
  omega

theorem toInt32_small (x : Int) (h0 : 0 ≤ x) (h1 : x < 2147483648) : toInt32 x = x := by
  unfold toInt32
  omega

theorem probeN_bounds {S : Type} (c : Codec S) (sess : Session S) (input : ByteBuf) :
    -2147483648 ≤ probeN c sess input ∧ probeN c sess input < 2147483648 := by
  unfold probeN
  exact toInt32_bounds _

theorem checkBytes_eq_of_nonneg {n : Int} (hn0 : 0 ≤ n) (hn1 : n < 2147483648)
    {ch : Nat} (hch : ch = 1 ∨ ch = 2) :
    checkBytes n ch = n.toNat * ch * 2 := by
  unfold checkBytes toU32 two32
  rcases hch with rfl | rfl <;> omega

theorem checkBytes_ge_of_neg {n : Int} (hn0 : -1073741824 ≤ n) (hn1 : n < 0)
    {ch : Nat} (hch : ch = 1 ∨ ch = 2) :
    4294967296 ≤ checkBytes n ch := by
  unfold checkBytes toU32 two32
  rcases hch with rfl | rfl <;> omega

theorem core_eq_of_short {S : Type} (c : Codec S) (tm : TimeModel) (sess : Session S)
    (input : ByteBuf) (o : Nat) (h : input.size < 8) :
    Decoder_DecodeInterleaved c tm sess input o =
      ⟨false, 0, 0, List.replicate o 0, sess.decoder, 0, none, none⟩ := by
  unfold Decoder_DecodeInterleaved
  rw [if_pos h]

theorem core_eq_of_bounds {S : Type} (c : Codec S) (tm : TimeModel) (sess : Session S)
    (input : ByteBuf) (o : Nat) (h8 : 8 ≤ input.size) (hb : input.size < 8 + hdrSz input) :
    Decoder_DecodeInterleaved c tm sess input o =
      ⟨false, 0, 0, List.replicate o 0, sess.decoder, 0, none, none⟩ := by
  unfold Decoder_DecodeInterleaved
  rw [if_neg (by omega), if_pos hb]

theorem core_eq_of_capacity {S : Type} (c : Codec S) (tm : TimeModel) (sess : Session S)
    (input : ByteBuf) (o : Nat) (h8 : 8 ≤ input.size) (hb : 8 + hdrSz input ≤ input.size)
    (hc : checkBytes (probeN c sess input) sess.channel_count > o * 2) :
    Decoder_DecodeInterleaved c tm sess input o =
      ⟨false, 0, 0, List.replicate o 0, sess.decoder, 0,
        some (toInt32 ((input.size : Int) - 8), toInt32 ((sess.sample_rate : Int))), none⟩ := by
  unfold Decoder_DecodeInterleaved
  rw [if_neg (by omega), if_neg (by omega), if_pos hc]

theorem core_samples_length {S : Type} (c : Codec S) (tm : TimeModel) (sess : Session S)
    (input : ByteBuf) (o : Nat) :
    (Decoder_DecodeInterleaved c tm sess input o).samples.length = o := by
  simp only [Decoder_DecodeInterleaved]
  split_ifs <;> simp [writeInto_length]

theorem core_ok_perf {S : Type} (c : Codec S) (tm : TimeModel) (sess : Session S)
    (input : ByteBuf) (o : Nat) (h : (Decoder_DecodeInterleaved c tm sess input o).ok = true) :
    (Decoder_DecodeInterleaved c tm sess input o).perf = tm.elapsed / 1000000 := by
  simp only [Decoder_DecodeInterleaved] at h ⊢
  split_ifs at h ⊢ <;> simp_all

theorem core_ok_consumed {S : Type} (c : Codec S) (tm : TimeModel) (sess : Session S)
    (input : ByteBuf) (o : Nat) (h : (Decoder_DecodeInterleaved c tm sess input o).ok = true) :
    (Decoder_DecodeInterleaved c tm sess input o).consumed = (8 + hdrSz input) % two32 := by
  simp only [Decoder_DecodeInterleaved] at h ⊢
  split_ifs at h ⊢ <;> simp_all

theorem core_decodeCall_shape {S : Type} (c : Codec S) (tm : TimeModel) (sess : Session S)
    (input : ByteBuf) (o : Nat) :
    (Decoder_DecodeInterleaved c tm sess input o).decodeCall = none ∨
      (Decoder_DecodeInterleaved c tm sess input o).decodeCall =
        some (toInt32 ((hdrSz input : Int)),
          toInt32 ((o * 2 / 2 / sess.channel_count : Nat) : Int), 0) := by
  simp only [Decoder_DecodeInterleaved]
  split_ifs <;> simp

theorem core_decodeCall_none_decoder {S : Type} (c : Codec S) (tm : TimeModel) (sess : Session S)
    (input : ByteBuf) (o : Nat)
    (h : (Decoder_DecodeInterleaved c tm sess input o).decodeCall = none) :
    (Decoder_DecodeInterleaved c tm sess input o).decoder = sess.decoder := by
  simp only [Decoder_DecodeInterleaved] at h ⊢
  split_ifs at h ⊢ <;> simp_all

theorem DecodeInterleaved_fst_some {S : Type} (c : Codec S) (tm : TimeModel) (sess : Session S)
    (input : ByteBuf) (o : Nat) {resp : DecodeResponse}
    (h : (DecodeInterleaved c tm sess input o).fst = some resp) :
    (Decoder_DecodeInterleaved c tm sess input (o / 2)).ok = true ∧
      resp = ⟨(Decoder_DecodeInterleaved c tm sess input (o / 2)).consumed,
              (Decoder_DecodeInterleaved c tm sess input (o / 2)).sample_count,
              (Decoder_DecodeInterleaved c tm sess input (o / 2)).samples, none⟩ := by
  unfold DecodeInterleaved at h
  by_cases hok : (Decoder_DecodeInterleaved c tm sess input (o / 2)).ok
  · rw [if_pos hok] at h
    simp at h
    exact ⟨hok, h.symm⟩
  · rw [if_neg hok] at h
    simp at h

theorem DecodeInterleavedWithPerformance_fst_some {S : Type} (c : Codec S) (tm : TimeModel)
    (sess : Session S) (input : ByteBuf) (o : Nat) {resp : DecodeResponse}
    (h : (DecodeInterleavedWithPerformance c tm sess input o).fst = some resp) :
    (Decoder_DecodeInterleaved c tm sess input (o / 2)).ok = true ∧
      resp = ⟨(Decoder_DecodeInterleaved c tm sess input (o / 2)).consumed,
              (Decoder_DecodeInterleaved c tm sess input (o / 2)).sample_count,
              (Decoder_DecodeInterleaved c tm sess input (o / 2)).samples,
              some (Decoder_DecodeInterleaved c tm sess input (o / 2)).perf⟩ := by
  unfold DecodeInterleavedWithPerformance at h
  by_cases hok : (Decoder_DecodeInterleaved c tm sess input (o / 2)).ok
  · rw [if_pos hok] at h
    simp at h
    exact ⟨hok, h.symm⟩
  · rw [if_neg hok] at h
    simp at h

theorem DecodeInterleaved_fst_none_of_not_ok {S : Type} (c : Codec S) (tm : TimeModel)
    (sess : Session S) (input : ByteBuf) (o : Nat)
    (h : (Decoder_DecodeInterleaved c tm sess input (o / 2)).ok = false) :
    (DecodeInterleaved c tm sess input o).fst = none := by
  unfold DecodeInterleaved
  rw [if_neg (by simp [h])]

theorem DecodeInterleavedWithPerformance_fst_none_of_not_ok {S : Type} (c : Codec S)
    (tm : TimeModel) (sess : Session S) (input : ByteBuf) (o : Nat)
    (h : (Decoder_DecodeInterleaved c tm sess input (o / 2)).ok = false) :
    (DecodeInterleavedWithPerformance c tm sess input o).fst = none := by
  unfold DecodeInterleavedWithPerformance
  rw [if_neg (by simp [h])]

theorem DecodeInterleaved_snd_eq {S : Type} (c : Codec S) (tm : TimeModel) (sess : Session S)
    (input : ByteBuf) (o : Nat) :
    (DecodeInterleaved c tm sess input o).snd =
      { sess with decoder := (Decoder_DecodeInterleaved c tm sess input (o / 2)).decoder } := by
  simp only [DecodeInterleaved]
  split_ifs <;> rfl

theorem DecodeInterleavedWithPerformance_snd_eq {S : Type} (c : Codec S) (tm : TimeModel)
    (sess : Session S) (input : ByteBuf) (o : Nat) :
    (DecodeInterleavedWithPerformance c tm sess input o).snd =
      { sess with decoder := (Decoder_DecodeInterleaved c tm sess input (o / 2)).decoder } := by
  simp only [DecodeInterleavedWithPerformance]
  split_ifs <;> rfl

end HwOpus

namespace HwOpus

/-! Claim theorems. -/

/-- Claim C1, counterexample: a successful call through
DecodeInterleavedWithPerformance in which the codec decode takes zero time
but each validation region takes one millisecond reports five elapsed
milliseconds, so the reported time is not measured strictly around the
codec decode invocation and does include header checking, parsing, bounds
checking and the probe. -/
theorem C1_counterexample :
    ((DecodeInterleavedWithPerformance (constCodec 2 2 [7, 7]) tmVal sess48k1
        (zeroBuf 10) 40).fst.map DecodeResponse.perf) = some (some 5) ∧
      tmVal.tDecode / 1000000 = 0 := by decide

/-- Claim C1 as amended: for every decode call via
DecodeInterleavedWithPerformance that succeeds, the reported elapsed
milliseconds value is non-negative (it is a Nat under the monotone-clock
model) and measures the wall-clock time from entry of the decode helper
through the end of the codec decode invocation, so it includes the time
spent on header presence checking, header parsing, payload-bounds checking
and the sample-count probe, because start_time is read at function entry. -/
theorem C1_elapsed_includes_validation {S : Type} (c : Codec S) (tm : TimeModel)
    (sess : Session S) (input : ByteBuf) (cap : Nat) (resp : DecodeResponse)
    (h : (DecodeInterleavedWithPerformance c tm sess input cap).fst = some resp) :
    resp.perf = some ((tm.tHeader + tm.tParse + tm.tBounds + tm.tProbe +
      tm.tCapacity + tm.tDecode) / 1000000) := by
  obtain ⟨hok, hresp⟩ := DecodeInterleavedWithPerformance_fst_some c tm sess input cap h
  rw [hresp]
  show some (Decoder_DecodeInterleaved c tm sess input (cap / 2)).perf = _
  rw [core_ok_perf c tm sess input (cap / 2) hok]
  rfl

/-- Claim C1 witness: the amended theorem applied to a concrete successful
call with one millisecond in each validation region. -/
theorem C1_witness :
    (⟨8, 2, [7, 7] ++ List.replicate 18 0, some 5⟩ : DecodeResponse).perf =
      some ((tmVal.tHeader + tmVal.tParse + tmVal.tBounds + tmVal.tProbe +
        tmVal.tCapacity + tmVal.tDecode) / 1000000) :=
  C1_elapsed_includes_validation (constCodec 2 2 [7, 7]) tmVal sess48k1 (zeroBuf 10) 40
    ⟨8, 2, [7, 7] ++ List.replicate 18 0, some 5⟩ (by decide)

/-- Claim C2, counterexample: a successful call whose codec decode produced
sample_count 2 on a mono session still writes 20 samples (the whole
allocated vector, output capacity divided by 2) to the output buffer, not
sample_count times channel_count, which would be 2. -/
theorem C2_counterexample :
    ((DecodeInterleaved (constCodec 2 2 [7, 7]) tm0 sess48k1 (zeroBuf 10) 40).fst.map
        (fun r => (r.sample_count, r.written.length))) = some (2, 20) ∧
      sess48k1.channel_count = 1 ∧ (2 * 1 : Nat) ≠ 20 := by decide

/-- Claim C2 as amended: for every successful decode call (either variant),
the number of 16-bit samples written to the output buffer is the full size
of the allocated sample vector, namely output capacity divided by 2, of
which the first sample_count times channel_count entries are the decoded
PCM and the rest are the untouched zero fill; it is not sample_count times
channel_count in general. -/
theorem C2_written_whole_vector {S : Type} (c : Codec S) (tm : TimeModel)
    (sess : Session S) (input : ByteBuf) (cap : Nat) (r1 r2 : DecodeResponse) :
    ((DecodeInterleaved c tm sess input cap).fst = some r1 →
        r1.written.length = cap / 2) ∧
    ((DecodeInterleavedWithPerformance c tm sess input cap).fst = some r2 →
        r2.written.length = cap / 2) := by
  constructor
  · intro h
    obtain ⟨hok, hresp⟩ := DecodeInterleaved_fst_some c tm sess input cap h
    rw [hresp]
    exact core_samples_length c tm sess input (cap / 2)
  · intro h
    obtain ⟨hok, hresp⟩ := DecodeInterleavedWithPerformance_fst_some c tm sess input cap h
    rw [hresp]
    exact core_samples_length c tm sess input (cap / 2)

/-- Claim C2 witness: the amended theorem applied to a concrete successful
call with capacity 40, writing 20 samples. -/
theorem C2_witness :
    (⟨8, 2, [7, 7] ++ List.replicate 18 0, none⟩ : DecodeResponse).written.length = 40 / 2 :=
  (C2_written_whole_vector (constCodec 2 2 [7, 7]) tm0 sess48k1 (zeroBuf 10) 40
    ⟨8, 2, [7, 7] ++ List.replicate 18 0, none⟩ ⟨0, 0, [], none⟩).1 (by decide)

/-- Claim C3: for every input that passes the framing checks, on a session
whose channel count is 1 or 2 and for an output capacity below 2^32, if the
probe result is non-negative and its sample count times channel count times
2 bytes exceeds the declared output capacity then both decode variants fail
and the codec decode is never invoked; and whenever the codec decode is
invoked it receives exactly the frame-size ceiling capacity / 2 /
channel_count (together with the declared payload size as length and
decode_fec 0). -/
theorem C3_capacity_check_before_decode {S : Type} (c : Codec S) (tm : TimeModel)
    (sess : Session S) (input : ByteBuf) (cap : Nat)
    (hch : sess.channel_count = 1 ∨ sess.channel_count = 2)
    (h8 : 8 ≤ input.size) (hb : 8 + hdrSz input ≤ input.size) (hcap : cap < two32) :
    (0 ≤ probeN c sess input →
        (probeN c sess input).toNat * sess.channel_count * 2 > cap →
        (DecodeInterleaved c tm sess input cap).fst = none ∧
          (DecodeInterleavedWithPerformance c tm sess input cap).fst = none ∧
          (Decoder_DecodeInterleaved c tm sess input (cap / 2)).decodeCall = none) ∧
    ((Decoder_DecodeInterleaved c tm sess input (cap / 2)).decodeCall = none ∨
      (Decoder_DecodeInterleaved c tm sess input (cap / 2)).decodeCall =
        some (toInt32 ((hdrSz input : Int)), ((cap / 2 / sess.channel_count : Nat) : Int), 0)) := by
  constructor
  · intro hn hover
    have hlt := (probeN_bounds c sess input).2
    have heq := checkBytes_eq_of_nonneg hn hlt hch
    have hc : checkBytes (probeN c sess input) sess.channel_count > cap / 2 * 2 := by
      rw [heq]
      rcases hch with h | h <;> omega
    have hcore := core_eq_of_capacity c tm sess input (cap / 2) h8 hb (by omega)
    refine ⟨DecodeInterleaved_fst_none_of_not_ok c tm sess input cap ?_,
      DecodeInterleavedWithPerformance_fst_none_of_not_ok c tm sess input cap ?_, ?_⟩ <;>
      rw [hcore]
  · rcases core_decodeCall_shape c tm sess input (cap / 2) with h | h
    · exact Or.inl h
    · refine Or.inr ?_
      rw [h]
      have hv : (cap / 2 * 2 / 2 : Nat) = cap / 2 := by omega
      rw [hv]
      have hle := Nat.div_le_self (cap / 2) sess.channel_count
      have hnat : cap / 2 / sess.channel_count < 2147483648 := by
        unfold two32 at hcap
        omega
      have hsm : toInt32 ((cap / 2 / sess.channel_count : Nat) : Int) =
          ((cap / 2 / sess.channel_count : Nat) : Int) :=
        toInt32_small _ (Int.natCast_nonneg _) (by exact_mod_cast hnat)
      rw [hsm]

/-- Claim C3 witness: a probe estimate of 30 mono samples (60 bytes) against
capacity 40 makes both variants fail without invoking the codec decode. -/
theorem C3_witness :
    (DecodeInterleaved (constCodec 30 0 []) tm0 sess48k1 (zeroBuf 10) 40).fst = none ∧
      (DecodeInterleavedWithPerformance (constCodec 30 0 []) tm0 sess48k1 (zeroBuf 10) 40).fst = none ∧
      (Decoder_DecodeInterleaved (constCodec 30 0 []) tm0 sess48k1 (zeroBuf 10) 20).decodeCall = none :=
  (C3_capacity_check_before_decode (constCodec 30 0 []) tm0 sess48k1 (zeroBuf 10) 40
    (by decide) (by decide) (by decide) (by decide)).1 (by decide) (by decide)

/-- Claim C4: for every input shorter than the 8-byte header, both decode
variants return the generic failure and leave everything untouched: no
response fields, no write to the output buffer, and the session (including
its decoder state) exactly as before; the model is a total function, so no
crash is possible. -/
theorem C4_short_input_rejected {S : Type} (c : Codec S) (tm : TimeModel)
    (sess : Session S) (input : ByteBuf) (cap : Nat) (h : input.size < 8) :
    DecodeInterleaved c tm sess input cap = (none, sess) ∧
      DecodeInterleavedWithPerformance c tm sess input cap = (none, sess) := by
  have hcore := core_eq_of_short c tm sess input (cap / 2) h
  constructor
  · unfold DecodeInterleaved
    rw [hcore]
    rfl
  · unfold DecodeInterleavedWithPerformance
    rw [hcore]
    rfl

/-- Claim C4 witness: a 3-byte input is rejected by both variants with the
session unchanged. -/
theorem C4_witness :
    DecodeInterleaved (constCodec 0 0 []) tm0 sess48k1 (zeroBuf 3) 40 = (none, sess48k1) ∧
      DecodeInterleavedWithPerformance (constCodec 0 0 []) tm0 sess48k1 (zeroBuf 3) 40 =
        (none, sess48k1) :=
  C4_short_input_rejected (constCodec 0 0 []) tm0 sess48k1 (zeroBuf 3) 40 (by decide)

/-- Claim C5: for every input of at least 8 bytes whose big-endian payload
size satisfies 8 + payload_size greater than the input length, both decode
variants fail and the codec is never consulted: neither the sample-count
probe nor the decode is invoked. -/
theorem C5_oversized_payload_rejected {S : Type} (c : Codec S) (tm : TimeModel)
    (sess : Session S) (input : ByteBuf) (cap : Nat)
    (h8 : 8 ≤ input.size) (hb : input.size < 8 + hdrSz input) :
    (DecodeInterleaved c tm sess input cap).fst = none ∧
      (DecodeInterleavedWithPerformance c tm sess input cap).fst = none ∧
      (Decoder_DecodeInterleaved c tm sess input (cap / 2)).probeCall = none ∧
      (Decoder_DecodeInterleaved c tm sess input (cap / 2)).decodeCall = none := by
  have hcore := core_eq_of_bounds c tm sess input (cap / 2) h8 hb
  refine ⟨DecodeInterleaved_fst_none_of_not_ok c tm sess input cap ?_,
    DecodeInterleavedWithPerformance_fst_none_of_not_ok c tm sess input cap ?_, ?_, ?_⟩ <;>
    rw [hcore]

/-- Claim C5 witness: an 8-byte input declaring a 200-byte payload is
rejected by both variants without consulting the codec. -/
theorem C5_witness :
    (DecodeInterleaved (constCodec 0 0 []) tm0 sess48k1 c5Input 40).fst = none ∧
      (DecodeInterleavedWithPerformance (constCodec 0 0 []) tm0 sess48k1 c5Input 40).fst = none ∧
      (Decoder_DecodeInterleaved (constCodec 0 0 []) tm0 sess48k1 c5Input 20).probeCall = none ∧
      (Decoder_DecodeInterleaved (constCodec 0 0 []) tm0 sess48k1 c5Input 20).decodeCall = none :=
  C5_oversized_payload_rejected (constCodec 0 0 []) tm0 sess48k1 c5Input 40
    (by decide) (by decide)

/-- Claim C6, counterexample: with an input of 4294967304 bytes declaring
the maximal payload size 4294967295, the framing checks pass, a codec that
accepts the packet makes the call succeed, and the returned consumed value
is 7, the u32 truncation of 8 + 4294967295 = 4294967303, not the exact sum. -/
theorem C6_counterexample :
    ((DecodeInterleaved (constCodec 0 0 []) tm0 sess48k1 c6Input 4).fst.map
        DecodeResponse.consumed) = some 7 ∧
      8 + hdrSz c6Input = 4294967303 ∧ (7 : Nat) ≠ 4294967303 := by decide

/-- Claim C6 as amended: for every successful decode call (either variant),
the returned consumed value equals (8 + payload_size) reduced modulo 2^32,
the u32 static_cast in the source; this equals 8 + payload_size exactly
whenever that sum is below 2^32, which holds for all inputs shorter than
2^32 bytes, and is independent of how many payload bytes the codec used. -/
theorem C6_consumed_wraps_u32 {S : Type} (c : Codec S) (tm : TimeModel)
    (sess : Session S) (input : ByteBuf) (cap : Nat) (r1 r2 : DecodeResponse) :
    ((DecodeInterleaved c tm sess input cap).fst = some r1 →
        r1.consumed = (8 + hdrSz input) % two32) ∧
    ((DecodeInterleavedWithPerformance c tm sess input cap).fst = some r2 →
        r2.consumed = (8 + hdrSz input) % two32) := by
  constructor
  · intro h
    obtain ⟨hok, hresp⟩ := DecodeInterleaved_fst_some c tm sess input cap h
    rw [hresp]
    exact core_ok_consumed c tm sess input (cap / 2) hok
  · intro h
    obtain ⟨hok, hresp⟩ := DecodeInterleavedWithPerformance_fst_some c tm sess input cap h
    rw [hresp]
    exact core_ok_consumed c tm sess input (cap / 2) hok

/-- Claim C6 witness: the amended theorem applied to a concrete successful
call with payload size 0, where consumed is 8. -/
theorem C6_witness :
    (⟨8, 2, [7, 7] ++ List.replicate 18 0, none⟩ : DecodeResponse).consumed =
      (8 + hdrSz (zeroBuf 10)) % two32 :=
  (C6_consumed_wraps_u32 (constCodec 2 2 [7, 7]) tm0 sess48k1 (zeroBuf 10) 40
    ⟨8, 2, [7, 7] ++ List.replicate 18 0, none⟩ ⟨0, 0, [], none⟩).1 (by decide)

/-- Claim C7, counterexample: a 20-byte input declaring a 4-byte payload
passes the framing checks, yet the sample-count probe is invoked with
length 12 (the whole remaining input, input size minus 8), not with the
declared payload size 4. -/
theorem C7_counterexample :
    (Decoder_DecodeInterleaved (constCodec 0 0 []) tm0 sess48k1 c7Input 20).probeCall =
      some (12, 48000) ∧ hdrSz c7Input = 4 ∧ (12 : Int) ≠ 4 := by decide

/-- Claim C7 as amended: for every input that passes the framing checks,
the sample-count probe is invoked with the payload bytes, the length
input.size - 8 (the whole remaining input after the header, as an int32,
not the declared payload_size, which it equals only when the input carries
no trailing slack) and the session sample rate. -/
theorem C7_probe_gets_remaining_length {S : Type} (c : Codec S) (tm : TimeModel)
    (sess : Session S) (input : ByteBuf) (o : Nat)
    (h8 : 8 ≤ input.size) (hb : 8 + hdrSz input ≤ input.size) :
    (Decoder_DecodeInterleaved c tm sess input o).probeCall =
      some (toInt32 ((input.size : Int) - 8), toInt32 ((sess.sample_rate : Int))) := by
  simp only [Decoder_DecodeInterleaved]
  rw [if_neg (by omega), if_neg (by omega)]
  split_ifs <;> rfl

/-- Claim C7 witness: the amended theorem applied to the 20-byte input with
declared payload 4; the probe length argument is 12. -/
theorem C7_witness :
    (Decoder_DecodeInterleaved (constCodec 0 0 []) tm0 sess48k1 c7Input 99).probeCall =
      some (toInt32 ((c7Input.size : Int) - 8), toInt32 ((sess48k1.sample_rate : Int))) :=
  C7_probe_gets_remaining_length (constCodec 0 0 []) tm0 sess48k1 c7Input 99
    (by decide) (by decide)

/-- Claim C8: whenever OpenOpusDecoder returns a session, the channel count
was valid (so the required size WorkerBufferSize is defined and equals
opus_decoder_get_size of the channel count) and the supplied buffer size is
at least that required size; a call with a smaller buffer can therefore
never succeed, because the assertion aborts it. -/
theorem C8_open_requires_buffer {S : Type} (f : CodecFactory S) (sr ch bs : Nat)
    (s : Session S) (h : OpenOpusDecoder f sr ch bs = OpenResult.session s) :
    WorkerBufferSize f.decoder_get_size ch = some (f.decoder_get_size ch) ∧
      f.decoder_get_size ch ≤ bs := by
  unfold OpenOpusDecoder at h
  split at h
  · cases h
  split at h
  · cases h
  split at h
  · cases h
  next worker_sz hw =>
    split at h
    · cases h
    next hbs =>
      unfold WorkerBufferSize at hw ⊢
      split at hw
      · next hvalid =>
        rw [if_pos hvalid]
        cases hw
        exact ⟨rfl, by omega⟩
      · cases hw

/-- Claim C8 witness: opening with exactly the required size succeeds and
satisfies the bound. -/
theorem C8_witness :
    WorkerBufferSize f0.decoder_get_size 1 = some (f0.decoder_get_size 1) ∧
      f0.decoder_get_size 1 ≤ 10 :=
  C8_open_requires_buffer f0 48000 1 10 ⟨0, 48000, 1⟩ (by decide)

/-- Claim C9, counterexample: a decode call that fails with a codec error
(the stub decode returns -1) has already handed the mutable decoder state
to the codec, which mutated it from 0 to 1; the failed call therefore does
leave a changed session state, contradicting the claim for codec-error
failures. -/
theorem C9_counterexample :
    (DecodeInterleaved (bumpCodec 0 (-1) []) tm0 sess48k1 (zeroBuf 10) 40).fst = none ∧
      (DecodeInterleaved (bumpCodec 0 (-1) []) tm0 sess48k1 (zeroBuf 10) 40).snd.decoder = 1 ∧
      sess48k1.decoder = 0 := by decide

/-- Claim C9 as amended: every failed decode call leaves the session
sample rate and channel count unchanged and returns to the caller (the
session object survives and remains usable); when the failure is a framing
or capacity failure, so that the codec decode was never invoked, the whole
session including the codec state is exactly unchanged; when the codec
decode itself was invoked and failed, the codec state is whatever the codec
left behind, since the code hands the state to the codec before knowing the
outcome. -/
theorem C9_failure_preserves_config {S : Type} (c : Codec S) (tm : TimeModel)
    (sess : Session S) (input : ByteBuf) (cap : Nat)
    (hfail : (DecodeInterleaved c tm sess input cap).fst = none) :
    (DecodeInterleaved c tm sess input cap).snd.sample_rate = sess.sample_rate ∧
      (DecodeInterleaved c tm sess input cap).snd.channel_count = sess.channel_count ∧
      ((Decoder_DecodeInterleaved c tm sess input (cap / 2)).decodeCall = none →
        (DecodeInterleaved c tm sess input cap).snd = sess ∧
          (DecodeInterleavedWithPerformance c tm sess input cap).snd = sess) := by
  refine ⟨?_, ?_, ?_⟩
  · rw [DecodeInterleaved_snd_eq]
  · rw [DecodeInterleaved_snd_eq]
  · intro hdc
    have hd := core_decodeCall_none_decoder c tm sess input (cap / 2) hdc
    rw [DecodeInterleaved_snd_eq, DecodeInterleavedWithPerformance_snd_eq, hd]
    exact ⟨rfl, rfl⟩

/-- Claim C9 witness: a framing failure (3-byte input) leaves the session
of both variants exactly unchanged. -/
theorem C9_witness :
    (DecodeInterleaved (constCodec 0 0 []) tm0 sess48k1 (zeroBuf 3) 40).snd = sess48k1 ∧
      (DecodeInterleavedWithPerformance (constCodec 0 0 []) tm0 sess48k1 (zeroBuf 3) 40).snd =
        sess48k1 :=
  (C9_failure_preserves_config (constCodec 0 0 []) tm0 sess48k1 (zeroBuf 3) 40
    (by decide)).2.2 (by decide)

/-- Claim C10, counterexample: a probe status of -2147483647 on a stereo
session wraps, in the u32 arithmetic of the capacity check, to only 4
bytes (not a huge value), so the capacity check passes and the real codec
decode is invoked even though the probe returned a negative status. -/
theorem C10_counterexample :
    (Decoder_DecodeInterleaved (constCodec (-2147483647) 0 []) tm0 sess48k2
        (zeroBuf 10) 50).decodeCall = some (0, 25, 0) ∧
      probeN (constCodec (-2147483647) 0 []) sess48k2 (zeroBuf 10) = -2147483647 ∧
      checkBytes (-2147483647) 2 = 4 := by decide

/-- Claim C10 as amended: if the probe returns a negative status no smaller
than -2^30 (all real Opus error codes lie in -7..-1) on a session with
channel count 1 or 2, the unsigned-wrapped product is at least 2^32, which
exceeds any output capacity below 2^32, so the call fails at the capacity
check and the codec decode is not invoked; for more negative statuses the
wrapped product can be small (see the counterexample), so the original
unconditional claim fails. -/
theorem C10_negative_probe_wrap {S : Type} (c : Codec S) (tm : TimeModel)
    (sess : Session S) (input : ByteBuf) (cap : Nat)
    (hch : sess.channel_count = 1 ∨ sess.channel_count = 2)
    (h8 : 8 ≤ input.size) (hb : 8 + hdrSz input ≤ input.size)
    (hneg : probeN c sess input < 0) (hmag : -1073741824 ≤ probeN c sess input)
    (hcap : cap < two32) :
    (DecodeInterleaved c tm sess input cap).fst = none ∧
      (DecodeInterleavedWithPerformance c tm sess input cap).fst = none ∧
      (Decoder_DecodeInterleaved c tm sess input (cap / 2)).decodeCall = none := by
  have hge := checkBytes_ge_of_neg hmag hneg hch
  have hc : checkBytes (probeN c sess input) sess.channel_count > cap / 2 * 2 := by
    unfold two32 at hcap
    omega
  have hcore := core_eq_of_capacity c tm sess input (cap / 2) h8 hb hc
  refine ⟨DecodeInterleaved_fst_none_of_not_ok c tm sess input cap ?_,
    DecodeInterleavedWithPerformance_fst_none_of_not_ok c tm sess input cap ?_, ?_⟩ <;>
    rw [hcore]

/-- Claim C10 witness: a probe status of -1 (the Opus bad-argument code) on
a mono session makes both variants fail without invoking the decode. -/
theorem C10_witness :
    (DecodeInterleaved (constCodec (-1) 0 []) tm0 sess48k1 (zeroBuf 10) 40).fst = none ∧
      (DecodeInterleavedWithPerformance (constCodec (-1) 0 []) tm0 sess48k1 (zeroBuf 10) 40).fst = none ∧
      (Decoder_DecodeInterleaved (constCodec (-1) 0 []) tm0 sess48k1 (zeroBuf 10) 20).decodeCall = none :=
  C10_negative_probe_wrap (constCodec (-1) 0 []) tm0 sess48k1 (zeroBuf 10) 40
    (by decide) (by decide) (by decide) (by decide) (by decide) (by decide)

end HwOpus
